import Mathlib

/-!
Shallow embedding of the DTAMind-Agentflow workflow execution engine
(`src/server/services/workflow-engine.ts`) together with its in-memory
storage collaborator (`src/server/config/storage.ts`), and proofs about
the engine's traversal, interpolation, dispatch and execution-record
lifecycle behaviour.

Modelling conventions:
* JavaScript values flowing through `node.data`, contexts and results are
  modelled by the inductive `JValue` (strings, rational numbers, booleans,
  null, arrays, objects).  `undefined` is collapsed into `vnull`; both are
  falsy and neither is distinguished by the engine code under study.
* Asynchronous collaborator services (OpenAI chat, the LLM service, the
  LangChain service, the dynamic `new Function` evaluator, `new Date()`)
  are injected as total functions, mirroring the spec's collaborator
  interfaces.  A collaborator that would throw is modelled with
  `Except String`, carrying the thrown error message.
* The recursive traversal is given explicit fuel; exhausting the fuel
  models the JavaScript stack-overflow `RangeError`, which the source
  converts into a failure result through its `catch` block.  A state flag
  `exhausted` records whether that artificial limit was ever hit.
* The traversal state additionally records an observational `trace` of
  every handler invocation (node id and result, in order), used to state
  the spy/counter properties of the specification.
-/

namespace AgentFlow

/-- JavaScript runtime values, as far as the engine manipulates them. -/
inductive JValue where
  | vstr (s : String)
  | vnum (n : Rat)
  | vbool (b : Bool)
  | vnull
  | varr (elems : List JValue)
  | vobj (fields : List (String × JValue))
deriving Repr

/-- Boolean equality on `JValue` (JavaScript `===` on these shapes, with
reference equality on arrays/objects replaced by structural equality,
which is all the concrete inputs in this file need). -/
def JValue.beq : JValue → JValue → Bool
  | .vstr a, .vstr b => a == b
  | .vnum a, .vnum b => a == b
  | .vbool a, .vbool b => a == b
  | .vnull, .vnull => true
  | .varr a, .varr b => beqArr a b
  | .vobj a, .vobj b => beqObj a b
  | _, _ => false
where
  beqArr : List JValue → List JValue → Bool
    | [], [] => true
    | x :: xs, y :: ys => JValue.beq x y && beqArr xs ys
    | _, _ => false
  beqObj : List (String × JValue) → List (String × JValue) → Bool
    | [], [] => true
    | (k, x) :: xs, (l, y) :: ys => k == l && JValue.beq x y && beqObj xs ys
    | _, _ => false

instance : BEq JValue := ⟨JValue.beq⟩

/-- JavaScript truthiness of a value. -/
def JValue.truthy : JValue → Bool
  | .vstr s => s != ""
  | .vnum n => n != 0
  | .vbool b => b
  | .vnull => false
  | .varr _ => true
  | .vobj _ => true

/-- JavaScript `String(v)` coercion, for the value shapes the claims
exercise (strings, integral numbers, booleans, null; arrays join their
elements with commas, objects print as `[object Object]`). -/
def JValue.toStr : JValue → String
  | .vstr s => s
  | .vnum n => if n.den = 1 then toString n.num else toString n
  | .vbool b => if b then "true" else "false"
  | .vnull => "null"
  | .varr es => String.intercalate "," (toStrArr es)
  | .vobj _ => "[object Object]"
where
  toStrArr : List JValue → List String
    | [] => []
    | e :: es => JValue.toStr e :: toStrArr es

/-- JavaScript short-circuit `a \x7c\x7c b`. -/
def JValue.jsOr (a b : JValue) : JValue := if a.truthy then a else b

/-- Property read `v[k]` on a (possibly non-object) value; a missing key
or a non-object receiver yields `undefined`, collapsed to `vnull`. -/
def jvGet (v : JValue) (k : String) : JValue :=
  match v with
  | .vobj fields => (List.lookup k fields).getD .vnull
  | _ => .vnull

/-- Destructuring with a default (`const \x7bk = d\x7d = v`): the default
applies only when the key is absent. -/
def jvGetD (v : JValue) (k : String) (d : JValue) : JValue :=
  match v with
  | .vobj fields => (List.lookup k fields).getD d
  | _ => d

/-- The field list of an object value (used to read a JSON-object input
into the `variables` record; non-objects contribute no fields). -/
def asFields : JValue → List (String × JValue)
  | .vobj fields => fields
  | _ => []

/-- The element list of an array value (`.map` receivers). -/
def asArr : JValue → List JValue
  | .varr elems => elems
  | _ => []

/-- Assignment `m[k] = v` on an insertion-ordered record: an existing key
is overwritten in place, a new key is appended. -/
def setAssoc {α : Type} (m : List (String × α)) (k : String) (v : α) :
    List (String × α) :=
  if m.any (fun p => p.1 == k) then
    m.map (fun p => if p.1 == k then (k, v) else p)
  else m ++ [(k, v)]

/-- Object spread update `\x7b...msg, k: v\x7d` (identity on non-objects,
which the source never spreads in the code paths under study). -/
def jvSetField (msg : JValue) (k : String) (v : JValue) : JValue :=
  match msg with
  | .vobj fields => .vobj (setAssoc fields k v)
  | other => other

/-- A character matched by the regex class `\w`. -/
def isWordChar (c : Char) : Bool := c.isAlphanum || c == '_'

/-- Maximal `\w*` prefix of a character list, together with the rest. -/
def takeWord : List Char → List Char × List Char
  | [] => ([], [])
  | c :: cs =>
    if isWordChar c then (c :: (takeWord cs).1, (takeWord cs).2)
    else ([], c :: cs)

/-- The execution-scoped context threaded through a traversal
(`WorkflowContext` in the source): initial input variables and the
per-node results accumulated so far. -/
structure WorkflowContext where
  executionId : String
  vars : List (String × JValue)
  previousResults : List (String × JValue)

/-- The replacement callback of `interpolateTemplate`: the value of
`context.variables[key] \x7c\x7c context.previousResults[key] \x7c\x7c match`,
coerced to a string by `String.replace`. -/
def tokenReplacement (context : WorkflowContext) (key tok : String) : String :=
  let v1 := (List.lookup key context.vars).getD .vnull
  if v1.truthy then v1.toStr
  else
    let v2 := (List.lookup key context.previousResults).getD .vnull
    if v2.truthy then v2.toStr else tok

/-- Left-to-right scan implementing
`template.replace(re, cb)` for the global regex matching two opening
braces, a nonempty `\w+` group, and two closing braces: at each position
the regex either matches (replace and continue after the match) or the
scan advances one character.  The scan is indexed by fuel for structural
recursion; every step consumes at least one character, so the template
length (supplied by `interpolateTemplate`) is always sufficient and the
fuel-zero case is never reached from there. -/
def interpScan (context : WorkflowContext) : Nat → List Char → List Char
  | 0, l => l
  | _ + 1, [] => []
  | fuel + 1, '{' :: '{' :: rest =>
    match takeWord rest with
    | (w, '}' :: '}' :: rest2) =>
      if w = [] then '{' :: interpScan context fuel ('{' :: rest)
      else
        (tokenReplacement context ⟨w⟩ ("\x7b\x7b" ++ (⟨w⟩ : String) ++ "\x7d\x7d")).data
          ++ interpScan context fuel rest2
    | _ => '{' :: interpScan context fuel ('{' :: rest)
  | fuel + 1, c :: rest => c :: interpScan context fuel rest

/-- `interpolateTemplate` from the source: empty (falsy) templates return
the empty string, otherwise every `\x7b\x7b\w+\x7d\x7d` token is replaced
through `tokenReplacement`. -/
def interpolateTemplate (template : String) (context : WorkflowContext) : String :=
  if template = "" then ""
  else ⟨interpScan context template.data.length template.data⟩

/-- A workflow node (`NodeSchema` in `@shared/schema`): id, type string,
cosmetic position, and a handler-specific data record. -/
structure WorkflowNode where
  id : String
  type : String
  position : Rat × Rat := (0, 0)
  data : JValue := .vobj []

/-- A workflow edge (`EdgeSchema` in `@shared/schema`). -/
structure WorkflowEdge where
  id : String
  source : String
  target : String
  sourceHandle : Option String := none
  targetHandle : Option String := none

/-- The uniform handler result (`NodeExecutionResult` in the source).
An absent `data` or `error` is the collapsed `vnull` / `none`. -/
structure NodeExecutionResult where
  success : Bool
  data : JValue := .vnull
  error : Option String := none
deriving Repr

/-- Result shape of the document-loading LangChain collaborators
(`processPDF`, `processCSV`, `scrapeURL`). -/
structure DocResult where
  success : Bool
  content : JValue := .vnull
  metadata : JValue := .vnull
  error : Option String := none

/-- Result shape of the vector-store LangChain collaborators. -/
structure VecResult where
  success : Bool
  vectorId : JValue := .vnull
  error : Option String := none

/-- Result shape of the chat LangChain collaborators. -/
structure ChatSvcResult where
  success : Bool
  response : JValue := .vnull
  error : Option String := none

/-- Result shape of `createConversationMemory`. -/
structure MemResult where
  success : Bool
  memoryId : JValue := .vnull
  error : Option String := none

/-- Result shape of `webSearch`. -/
structure SearchSvcResult where
  success : Bool
  results : JValue := .vnull
  error : Option String := none

/-- Result shape of the external `executeCode` collaborator. -/
structure ExecSvcResult where
  success : Bool
  result : JValue := .vnull
  error : Option String := none

/-- The injected `langChainService` collaborator: one total function per
capability, taking exactly the arguments the engine passes. -/
structure LangChainService where
  processPDF : String → JValue → DocResult
  processCSV : String → JValue → DocResult
  scrapeURL : String → JValue → DocResult
  createPineconeStore : String → String → String → VecResult
  createWeaviateStore : String → String → VecResult
  chatWithOpenAI : List JValue → JValue → JValue → JValue → ChatSvcResult
  chatWithAnthropic : List JValue → JValue → JValue → ChatSvcResult
  createConversationMemory : String → JValue → MemResult
  webSearch : String → JValue → JValue → SearchSvcResult
  executeCode : String → JValue → JValue → ExecSvcResult

/-- The request record the `openai` handler passes to
`openaiService.chat`. -/
structure OpenAIChatRequest where
  model : JValue
  temperature : JValue
  maxTokens : JValue
  systemPrompt : String
  messages : List JValue

/-- All injected collaborators of the engine: the OpenAI service, the
multi-provider LLM service, the LangChain service, the dynamic
`new Function` evaluator used by the `code` and `condition` handlers
(given the source text and the two records passed as arguments), and the
clock behind `new Date()`.  `Except.error` models a thrown exception,
carrying its message. -/
structure Collaborators where
  openaiChat : OpenAIChatRequest → Except String JValue
  llmGenerate : JValue → JValue → String → List (String × JValue) → Except String JValue
  runJS : String → List (String × JValue) → List (String × JValue) → Except String JValue
  langChain : LangChainService
  now : String

/-- The `manual` trigger handler: passes `context.variables` through. -/
def executeManualTrigger (_node : WorkflowNode) (context : WorkflowContext) :
    NodeExecutionResult :=
  { success := true, data := .vobj context.vars }

/-- The `webhook` trigger handler: passes `context.variables` through. -/
def executeWebhook (_node : WorkflowNode) (context : WorkflowContext) :
    NodeExecutionResult :=
  { success := true, data := .vobj context.vars }

/-- The `schedule` trigger handler: returns only a timestamp object. -/
def executeSchedule (C : Collaborators) (_node : WorkflowNode)
    (_context : WorkflowContext) : NodeExecutionResult :=
  { success := true, data := .vobj [("timestamp", .vstr C.now)] }

/-- The `openai` handler: interpolates the user message and system
prompt, calls the OpenAI collaborator with defaulted parameters, and
shapes the response; a thrown collaborator error becomes a failure. -/
def executeOpenAI (C : Collaborators) (node : WorkflowNode)
    (context : WorkflowContext) : NodeExecutionResult :=
  let systemPrompt := jvGet node.data "systemPrompt"
  let model := jvGet node.data "model"
  let temperature := jvGet node.data "temperature"
  let maxTokens := jvGet node.data "maxTokens"
  let userMessage := jvGet node.data "userMessage"
  let messages : List JValue :=
    if userMessage.truthy then
      [.vobj [("role", .vstr "user"),
              ("content", .vstr (interpolateTemplate userMessage.toStr context))]]
    else []
  match C.openaiChat
      { model := model.jsOr (.vstr "gpt-4o"),
        temperature := temperature.jsOr (.vnum ((7 : Rat) / 10)),
        maxTokens := maxTokens.jsOr (.vnum 150),
        systemPrompt := interpolateTemplate (systemPrompt.jsOr (.vstr "")).toStr context,
        messages := messages } with
  | .ok response =>
      { success := true, data := .vobj [("response", response), ("rawOutput", response)] }
  | .error e => { success := false, error := some e }

/-- The `agent` handler: interpolates the prompt and delegates to the
multi-provider LLM collaborator with destructuring defaults. -/
def executeAgent (C : Collaborators) (node : WorkflowNode)
    (context : WorkflowContext) : NodeExecutionResult :=
  let prompt := jvGet node.data "prompt"
  let provider := jvGetD node.data "provider" (.vstr "openai")
  let model := jvGetD node.data "model" (.vstr "gpt-4o")
  let interpolatedPrompt := interpolateTemplate (prompt.jsOr (.vstr "")).toStr context
  match C.llmGenerate provider model interpolatedPrompt context.previousResults with
  | .ok response =>
      { success := true,
        data := .vobj [("response", response),
                       ("context", .vobj context.previousResults),
                       ("provider", provider), ("model", model)] }
  | .error e => { success := false, error := some e }

/-- The `vector` handler: a placeholder returning empty results. -/
def executeVectorSearch (node : WorkflowNode) (_context : WorkflowContext) :
    NodeExecutionResult :=
  { success := true,
    data := .vobj [("results", .varr []), ("query", jvGet node.data "query")] }

/-- The `code` handler: runs the user script through the injected
evaluator when the language is `javascript`, otherwise fails. -/
def executeCode (C : Collaborators) (node : WorkflowNode)
    (context : WorkflowContext) : NodeExecutionResult :=
  let code := jvGet node.data "code"
  let language := jvGet node.data "language"
  if language == .vstr "javascript" then
    match C.runJS code.toStr context.vars context.previousResults with
    | .ok result => { success := true, data := result }
    | .error e => { success := false, error := some e }
  else { success := false, error := some ("Unsupported language: " ++ language.toStr) }

/-- The `condition` handler: evaluates `return <condition>` through the
injected evaluator and shapes the boolean alongside the original text. -/
def executeCondition (C : Collaborators) (node : WorkflowNode)
    (context : WorkflowContext) : NodeExecutionResult :=
  let condition := jvGet node.data "condition"
  match C.runJS ("return " ++ condition.toStr) context.vars context.previousResults with
  | .ok result =>
      { success := true,
        data := .vobj [("condition", result), ("originalCondition", condition)] }
  | .error e => { success := false, error := some e }

/-- The `merge` handler: wraps the whole `previousResults` map. -/
def executeMerge (_node : WorkflowNode) (context : WorkflowContext) :
    NodeExecutionResult :=
  { success := true, data := .vobj [("merged", .vobj context.previousResults)] }

/-- The `email` handler: logs interpolated fields (a discarded effect in
this model) and reports the raw `to`/`subject` as sent. -/
def executeEmail (_C : Collaborators) (node : WorkflowNode)
    (_context : WorkflowContext) : NodeExecutionResult :=
  { success := true,
    data := .vobj [("sent", .vbool true), ("to", jvGet node.data "to"),
                   ("subject", jvGet node.data "subject")] }

/-- The `webhook-response` handler: interpolates `responseData` (default
an empty JSON object text) and returns the resulting string as data. -/
def executeWebhookResponse (node : WorkflowNode) (context : WorkflowContext) :
    NodeExecutionResult :=
  let responseData := jvGet node.data "responseData"
  { success := true,
    data := .vstr (interpolateTemplate (responseData.jsOr (.vstr "\x7b\x7d")).toStr context) }

/-- The extended LangChain node family recognised by `isLangChainNode`. -/
def langChainNodeTypes : List String :=
  ["pdf-loader", "csv-loader", "url-scraper", "pinecone-store", "weaviate-store",
   "openai-chat", "anthropic-chat", "conversation-memory", "web-search", "code-executor"]

/-- A node is a LangChain node when its `data.type` is one of the family
type strings (`langChainNodeTypes.includes(node.data.type)`). -/
def isLangChainNode (node : WorkflowNode) : Bool :=
  match jvGet node.data "type" with
  | .vstr s => langChainNodeTypes.contains s
  | _ => false

/-- The `pdf-loader` LangChain handler. -/
def executePDFLoader (C : Collaborators) (_node : WorkflowNode)
    (context : WorkflowContext) (config : JValue) : NodeExecutionResult :=
  let filePath := interpolateTemplate ((jvGet config "filePath").jsOr (.vstr "")).toStr context
  let pages := jvGet config "pages"
  let result := C.langChain.processPDF filePath pages
  if result.success then
    { success := true,
      data := .vobj [("content", result.content), ("metadata", result.metadata),
                     ("nodeType", .vstr "pdf-loader")] }
  else { success := false, error := result.error }

/-- The `csv-loader` LangChain handler. -/
def executeCSVLoader (C : Collaborators) (_node : WorkflowNode)
    (context : WorkflowContext) (config : JValue) : NodeExecutionResult :=
  let filePath := interpolateTemplate ((jvGet config "filePath").jsOr (.vstr "")).toStr context
  let delimiter := (jvGet config "delimiter").jsOr (.vstr ",")
  let result := C.langChain.processCSV filePath delimiter
  if result.success then
    { success := true,
      data := .vobj [("content", result.content), ("metadata", result.metadata),
                     ("nodeType", .vstr "csv-loader")] }
  else { success := false, error := result.error }

/-- The `url-scraper` LangChain handler. -/
def executeURLScraper (C : Collaborators) (_node : WorkflowNode)
    (context : WorkflowContext) (config : JValue) : NodeExecutionResult :=
  let url := interpolateTemplate ((jvGet config "url").jsOr (.vstr "")).toStr context
  let selector := jvGet config "selector"
  let result := C.langChain.scrapeURL url selector
  if result.success then
    { success := true,
      data := .vobj [("content", result.content), ("metadata", result.metadata),
                     ("nodeType", .vstr "url-scraper")] }
  else { success := false, error := result.error }

/-- The `pinecone-store` LangChain handler. -/
def executePineconeStore (C : Collaborators) (_node : WorkflowNode)
    (context : WorkflowContext) (config : JValue) : NodeExecutionResult :=
  let apiKey := interpolateTemplate ((jvGet config "apiKey").jsOr (.vstr "")).toStr context
  let environment := interpolateTemplate ((jvGet config "environment").jsOr (.vstr "")).toStr context
  let indexName := interpolateTemplate ((jvGet config "indexName").jsOr (.vstr "")).toStr context
  let result := C.langChain.createPineconeStore apiKey environment indexName
  if result.success then
    { success := true,
      data := .vobj [("vectorStoreId", result.vectorId), ("nodeType", .vstr "pinecone-store")] }
  else { success := false, error := result.error }

/-- The `weaviate-store` LangChain handler. -/
def executeWeaviateStore (C : Collaborators) (_node : WorkflowNode)
    (context : WorkflowContext) (config : JValue) : NodeExecutionResult :=
  let url := interpolateTemplate ((jvGet config "url").jsOr (.vstr "")).toStr context
  let className := interpolateTemplate ((jvGet config "className").jsOr (.vstr "")).toStr context
  let result := C.langChain.createWeaviateStore url className
  if result.success then
    { success := true,
      data := .vobj [("vectorStoreId", result.vectorId), ("nodeType", .vstr "weaviate-store")] }
  else { success := false, error := result.error }

/-- The `openai-chat` LangChain handler: interpolates each message's
content and delegates to the chat collaborator. -/
def executeOpenAIChat (C : Collaborators) (_node : WorkflowNode)
    (context : WorkflowContext) (config : JValue) : NodeExecutionResult :=
  let messages := (jvGet config "messages").jsOr (.varr [])
  let model := (jvGet config "model").jsOr (.vstr "gpt-4o")
  let temperature := (jvGet config "temperature").jsOr (.vnum ((7 : Rat) / 10))
  let maxTokens := (jvGet config "maxTokens").jsOr (.vnum 1000)
  let interpolatedMessages := (asArr messages).map (fun msg =>
    jvSetField msg "content"
      (.vstr (interpolateTemplate ((jvGet msg "content").jsOr (.vstr "")).toStr context)))
  let result := C.langChain.chatWithOpenAI interpolatedMessages model temperature maxTokens
  if result.success then
    { success := true,
      data := .vobj [("response", result.response), ("nodeType", .vstr "openai-chat")] }
  else { success := false, error := result.error }

/-- The `anthropic-chat` LangChain handler. -/
def executeAnthropicChat (C : Collaborators) (_node : WorkflowNode)
    (context : WorkflowContext) (config : JValue) : NodeExecutionResult :=
  let messages := (jvGet config "messages").jsOr (.varr [])
  let model := (jvGet config "model").jsOr (.vstr "claude-3-5-sonnet-20241022")
  let temperature := (jvGet config "temperature").jsOr (.vnum ((7 : Rat) / 10))
  let interpolatedMessages := (asArr messages).map (fun msg =>
    jvSetField msg "content"
      (.vstr (interpolateTemplate ((jvGet msg "content").jsOr (.vstr "")).toStr context)))
  let result := C.langChain.chatWithAnthropic interpolatedMessages model temperature
  if result.success then
    { success := true,
      data := .vobj [("response", result.response), ("nodeType", .vstr "anthropic-chat")] }
  else { success := false, error := result.error }

/-- The `conversation-memory` LangChain handler. -/
def executeConversationMemory (C : Collaborators) (_node : WorkflowNode)
    (context : WorkflowContext) (config : JValue) : NodeExecutionResult :=
  let memoryKey :=
    interpolateTemplate ((jvGet config "memoryKey").jsOr (.vstr "conversation")).toStr context
  let maxTokens := (jvGet config "maxTokens").jsOr (.vnum 2000)
  let result := C.langChain.createConversationMemory memoryKey maxTokens
  if result.success then
    { success := true,
      data := .vobj [("memoryId", result.memoryId), ("nodeType", .vstr "conversation-memory")] }
  else { success := false, error := result.error }

/-- The `web-search` LangChain handler. -/
def executeWebSearch (C : Collaborators) (_node : WorkflowNode)
    (context : WorkflowContext) (config : JValue) : NodeExecutionResult :=
  let query := interpolateTemplate ((jvGet config "query").jsOr (.vstr "")).toStr context
  let searchEngine := (jvGet config "searchEngine").jsOr (.vstr "google")
  let maxResults := (jvGet config "maxResults").jsOr (.vnum 5)
  let result := C.langChain.webSearch query searchEngine maxResults
  if result.success then
    { success := true,
      data := .vobj [("results", result.results), ("query", .vstr query),
                     ("searchEngine", searchEngine), ("nodeType", .vstr "web-search")] }
  else { success := false, error := result.error }

/-- The `code-executor` LangChain handler. -/
def executeCodeExecutor (C : Collaborators) (_node : WorkflowNode)
    (context : WorkflowContext) (config : JValue) : NodeExecutionResult :=
  let code := interpolateTemplate ((jvGet config "code").jsOr (.vstr "")).toStr context
  let language := (jvGet config "language").jsOr (.vstr "python")
  let timeout := (jvGet config "timeout").jsOr (.vnum 30)
  let result := C.langChain.executeCode code language timeout
  if result.success then
    { success := true,
      data := .vobj [("result", result.result), ("language", language),
                     ("nodeType", .vstr "code-executor")] }
  else { success := false, error := result.error }

/-- `executeLangChainNode`: a switch on `node.data.type` dispatching the
extended family, with its own clean-failure default. -/
def executeLangChainNode (C : Collaborators) (node : WorkflowNode)
    (context : WorkflowContext) : NodeExecutionResult :=
  let nodeType := jvGet node.data "type"
  let config := (jvGet node.data "config").jsOr (.vobj [])
  if nodeType == .vstr "pdf-loader" then executePDFLoader C node context config
  else if nodeType == .vstr "csv-loader" then executeCSVLoader C node context config
  else if nodeType == .vstr "url-scraper" then executeURLScraper C node context config
  else if nodeType == .vstr "pinecone-store" then executePineconeStore C node context config
  else if nodeType == .vstr "weaviate-store" then executeWeaviateStore C node context config
  else if nodeType == .vstr "openai-chat" then executeOpenAIChat C node context config
  else if nodeType == .vstr "anthropic-chat" then executeAnthropicChat C node context config
  else if nodeType == .vstr "conversation-memory" then
    executeConversationMemory C node context config
  else if nodeType == .vstr "web-search" then executeWebSearch C node context config
  else if nodeType == .vstr "code-executor" then executeCodeExecutor C node context config
  else { success := false,
         error := some ("Unsupported LangChain node type: " ++ nodeType.toStr) }

/-- `executeNode`: LangChain check first, then the switch on `node.type`
over the built-in handlers, with the unknown-type clean failure. -/
def executeNode (C : Collaborators) (node : WorkflowNode)
    (context : WorkflowContext) : NodeExecutionResult :=
  if isLangChainNode node then executeLangChainNode C node context
  else if node.type == "manual" then executeManualTrigger node context
  else if node.type == "webhook" then executeWebhook node context
  else if node.type == "schedule" then executeSchedule C node context
  else if node.type == "openai" then executeOpenAI C node context
  else if node.type == "agent" then executeAgent C node context
  else if node.type == "vector" then executeVectorSearch node context
  else if node.type == "code" then executeCode C node context
  else if node.type == "condition" then executeCondition C node context
  else if node.type == "merge" then executeMerge node context
  else if node.type == "email" then executeEmail C node context
  else if node.type == "webhook-response" then executeWebhookResponse node context
  else { success := false, error := some ("Unknown node type: " ++ node.type) }

/-- Mutable traversal state: the shared `previousResults` record, an
observational trace of handler invocations (id and result, in call
order), and whether the fuel limit was ever hit. -/
structure TravState where
  previousResults : List (String × JValue)
  trace : List (String × NodeExecutionResult)
  exhausted : Bool

/-- One pending activation of the traversal: either entering
`executeFromNode` on a node, or resuming its `for` loop over the
remaining outgoing edges while holding the current node's `result`. -/
inductive TravCall where
  | node (n : WorkflowNode)
  | edgeLoop (result : NodeExecutionResult) (rest : List WorkflowEdge)

/-- The recursive traversal of `executeFromNode`, fuel-indexed.  Every
recursive step (entering a node or advancing the edge loop) consumes one
unit of fuel; running out models the stack-overflow `RangeError` that the
source's `catch` converts into a failure result, and is flagged in
`exhausted`.  The handler registry `exec` is the injected dispatch
(`executeNode C` for the concrete engine). -/
def travRun (exec : WorkflowNode → WorkflowContext → NodeExecutionResult)
    (allNodes : List WorkflowNode) (edges : List WorkflowEdge)
    (execId : String) (vars : List (String × JValue)) :
    Nat → TravCall → TravState → NodeExecutionResult × TravState
  | 0, _, st =>
    ({ success := false, error := some "Maximum call stack size exceeded" },
     { st with exhausted := true })
  | fuel + 1, .node node, st =>
    let result := exec node ⟨execId, vars, st.previousResults⟩
    let st1 : TravState := { st with trace := st.trace ++ [(node.id, result)] }
    if !result.success then (result, st1)
    else
      let st2 : TravState :=
        { st1 with previousResults := setAssoc st1.previousResults node.id result.data }
      let nextEdges := edges.filter (fun edge => edge.source == node.id)
      if nextEdges.isEmpty then (result, st2)
      else travRun exec allNodes edges execId vars fuel (.edgeLoop result nextEdges) st2
  | fuel + 1, .edgeLoop result rest, st =>
    match rest with
    | [] => (result, st)
    | edge :: rest' =>
      match allNodes.find? (fun n => n.id == edge.target) with
      | none => travRun exec allNodes edges execId vars fuel (.edgeLoop result rest') st
      | some nextNode =>
        let (nextResult, st') := travRun exec allNodes edges execId vars fuel (.node nextNode) st
        if !nextResult.success then (nextResult, st')
        else travRun exec allNodes edges execId vars fuel (.edgeLoop result rest') st'

/-- `executeFromNode(node, allNodes, edges, context)` with explicit fuel:
runs the node's handler, stores its data on success, and walks all
outgoing edges recursively, failing fast. -/
def executeFromNode (exec : WorkflowNode → WorkflowContext → NodeExecutionResult)
    (fuel : Nat) (node : WorkflowNode) (allNodes : List WorkflowNode)
    (edges : List WorkflowEdge) (execId : String)
    (vars : List (String × JValue)) (st : TravState) :
    NodeExecutionResult × TravState :=
  travRun exec allNodes edges execId vars fuel (.node node) st

/-- The persisted execution record (`WorkflowExecution`). -/
structure WorkflowExecution where
  id : String
  workflowId : String
  input : JValue
  output : JValue
  status : String
  error : Option String
  executionTime : String
  completedAt : Option String
deriving Repr

/-- A partial update passed to `updateWorkflowExecution`; `none` means
the field is absent from the partial object. -/
structure ExecutionUpdate where
  status : Option String := none
  output : Option JValue := none
  error : Option String := none
  completedAt : Option String := none
deriving Repr

/-- The in-memory storage state (`MemStorage`): the execution map plus an
observational log of every `updateWorkflowExecution` call. -/
structure StorageState where
  executions : List (String × WorkflowExecution) := []
  updateCalls : List (String × ExecutionUpdate) := []

/-- `MemStorage.createWorkflowExecution`: a fresh record with
`status: running`, defaulted input, null output/error, the current
time, and no completion time.  The generated UUID is injected. -/
def createWorkflowExecution (newId : String) (now : String)
    (workflowId : String) (input : JValue) (st : StorageState) :
    WorkflowExecution × StorageState :=
  let execution : WorkflowExecution :=
    { id := newId, workflowId := workflowId,
      input := input.jsOr (.vobj []),
      output := .vnull, status := "running", error := none,
      executionTime := now, completedAt := none }
  (execution, { st with executions := setAssoc st.executions newId execution })

/-- `MemStorage.updateWorkflowExecution`: merge the present fields of the
partial update into the stored record (spread semantics); an unknown id
returns `undefined` and stores nothing.  The call is also logged. -/
def updateWorkflowExecution (id : String) (updates : ExecutionUpdate)
    (st : StorageState) : Option WorkflowExecution × StorageState :=
  let st := { st with updateCalls := st.updateCalls ++ [(id, updates)] }
  match List.lookup id st.executions with
  | none => (none, st)
  | some execution =>
    let updated : WorkflowExecution :=
      { execution with
        status := updates.status.getD execution.status,
        output := updates.output.getD execution.output,
        error := updates.error <|> execution.error,
        completedAt := updates.completedAt <|> execution.completedAt }
    (some updated, { st with executions := setAssoc st.executions id updated })

/-- `MemStorage.getWorkflowExecution`. -/
def getWorkflowExecution (id : String) (st : StorageState) :
    Option WorkflowExecution :=
  List.lookup id st.executions

/-- `executeWorkflow(workflowId, nodes, edges, input)`: create the
execution record, find the start nodes (no incoming edges), traverse from
the first one, and update the record — `completed` with the traversal
result's data on the non-throwing path, `failed` with the error message
when the try block throws (which, handlers being caught internally,
happens exactly when no start node exists), rethrowing afterwards.
Returns the Except outcome together with the final storage and traversal
states. -/
def executeWorkflow (C : Collaborators) (fuel : Nat) (newId : String)
    (workflowId : String) (nodes : List WorkflowNode)
    (edges : List WorkflowEdge) (input : JValue) (st : StorageState) :
    Except String WorkflowExecution × StorageState × TravState :=
  let (execution, st) :=
    createWorkflowExecution newId C.now workflowId (input.jsOr (.vobj [])) st
  let vars := asFields (input.jsOr (.vobj []))
  let startNodes := nodes.filter (fun node => !edges.any (fun edge => edge.target == node.id))
  match startNodes with
  | [] =>
    let msg := "No start node found in workflow"
    let (_, st) := updateWorkflowExecution execution.id
      { status := some "failed", error := some msg, completedAt := some C.now } st
    (.error msg, st, ⟨[], [], false⟩)
  | startNode :: _ =>
    let (result, tst) :=
      executeFromNode (executeNode C) fuel startNode nodes edges execution.id vars ⟨[], [], false⟩
    let (_, st) := updateWorkflowExecution execution.id
      { status := some "completed", output := some result.data, completedAt := some C.now } st
    (.ok ((getWorkflowExecution execution.id st).getD execution), st, tst)

/-- The record of `previousResults` writes performed by a traversal
segment: each successful trace entry stores its data under the node id,
failures store nothing (the source stores only after the success check). -/
def applyStores (m : List (String × JValue)) :
    List (String × NodeExecutionResult) → List (String × JValue)
  | [] => m
  | p :: l => applyStores (if p.2.success then setAssoc m p.1 p.2.data else m) l

/-- Every entry of a trace segment succeeded. -/
def allSucc (delta : List (String × NodeExecutionResult)) : Prop :=
  ∀ p ∈ delta, p.2.success = true

/-- A LangChain collaborator mock whose every capability fails with a
stub message; concrete scenarios override the capability they exercise. -/
def stubLangChain : LangChainService :=
  { processPDF := fun _ _ => ⟨false, .vnull, .vnull, some "stub"⟩,
    processCSV := fun _ _ => ⟨false, .vnull, .vnull, some "stub"⟩,
    scrapeURL := fun _ _ => ⟨false, .vnull, .vnull, some "stub"⟩,
    createPineconeStore := fun _ _ _ => ⟨false, .vnull, some "stub"⟩,
    createWeaviateStore := fun _ _ => ⟨false, .vnull, some "stub"⟩,
    chatWithOpenAI := fun _ _ _ _ => ⟨false, .vnull, some "stub"⟩,
    chatWithAnthropic := fun _ _ _ => ⟨false, .vnull, some "stub"⟩,
    createConversationMemory := fun _ _ => ⟨false, .vnull, some "stub"⟩,
    webSearch := fun _ _ _ => ⟨false, .vnull, some "stub"⟩,
    executeCode := fun _ _ _ => ⟨false, .vnull, some "stub"⟩ }

/-- Collaborators whose LangChain chat capability returns the canned
result `r`, with a fixed clock; everything else fails with a stub. -/
def mockChat (r : ChatSvcResult) : Collaborators :=
  { openaiChat := fun _ => .error "stub",
    llmGenerate := fun _ _ _ _ => .error "stub",
    runJS := fun _ _ _ => .error "stub",
    langChain := { stubLangChain with chatWithOpenAI := fun _ _ _ _ => r },
    now := "T0" }

/-- Start node of the specification's 3-node scenario chain: a manual
trigger. -/
def nodeA : WorkflowNode := { id := "A", type := "manual" }

/-- Middle node of the scenario chain: an `openai-chat` LangChain node. -/
def nodeB : WorkflowNode :=
  { id := "B", type := "langchain", data := .vobj [("type", .vstr "openai-chat")] }

/-- Final node of the scenario chain: a `webhook-response` node whose
response template references the token `response`. -/
def nodeC : WorkflowNode :=
  { id := "C", type := "webhook-response",
    data := .vobj [("responseData", .vstr "\x7b\x7bresponse\x7d\x7d")] }

/-- Edges of the scenario chain A → B → C. -/
def chainEdges : List WorkflowEdge :=
  [{ id := "e1", source := "A", target := "B" },
   { id := "e2", source := "B", target := "C" }]

/-- The scenario input object. -/
def scenarioInput : JValue := .vobj [("message", .vstr "hi")]

/-- A manual-trigger node with the given id, used by the diamond and
cycle fixtures. -/
def manualNode (s : String) : WorkflowNode := { id := s, type := "manual" }

/-- Nodes of the diamond graph A → B → D, A → C → D. -/
def diamondNodes : List WorkflowNode :=
  [manualNode "A", manualNode "B", manualNode "C", manualNode "D"]

/-- Edges of the diamond graph. -/
def diamondEdges : List WorkflowEdge :=
  [{ id := "e1", source := "A", target := "B" },
   { id := "e2", source := "A", target := "C" },
   { id := "e3", source := "B", target := "D" },
   { id := "e4", source := "C", target := "D" }]

/-- A 2-node cycle: every node has an incoming edge, so no start node
exists. -/
def cycleNodes : List WorkflowNode := [manualNode "A", manualNode "B"]

/-- Edges of the 2-node cycle. -/
def cycleEdges : List WorkflowEdge :=
  [{ id := "e1", source := "A", target := "B" },
   { id := "e2", source := "B", target := "A" }]

/-- The built-in node types of the engine's dispatch switch. -/
def builtinNodeTypes : List String :=
  ["manual", "webhook", "schedule", "openai", "agent", "vector",
   "code", "condition", "merge", "email", "webhook-response"]

/-- The scenario run with the chat collaborator failing with `boom`
(exercises the failing middle node of the chain). -/
def c1Run : Except String WorkflowExecution × StorageState × TravState :=
  executeWorkflow (mockChat ⟨false, .vnull, some "boom"⟩) 20 "X1" "wf"
    [nodeA, nodeB, nodeC] chainEdges scenarioInput {}

/-- The scenario run with the chat collaborator returning `hello back`. -/
def c2Run : Except String WorkflowExecution × StorageState × TravState :=
  executeWorkflow (mockChat ⟨true, .vstr "hello back", none⟩) 20 "X1" "wf"
    [nodeA, nodeB, nodeC] chainEdges scenarioInput {}

/-- The failing-chain traversal on its own (from the start node, fresh
context), for fail-fast observations. -/
def c4Run : NodeExecutionResult × TravState :=
  executeFromNode (executeNode (mockChat ⟨false, .vnull, some "boom"⟩)) 20 nodeA
    [nodeA, nodeB, nodeC] chainEdges "X1" [("message", JValue.vstr "hi")]
    ⟨[], [], false⟩

/-- The diamond-graph traversal (all manual nodes, fresh context). -/
def c5Run : NodeExecutionResult × TravState :=
  executeFromNode (executeNode (mockChat ⟨false, .vnull, some "x"⟩)) 20
    (manualNode "A") diamondNodes diamondEdges "E" [] ⟨[], [], false⟩

/-- The cycle-workflow run (no start node exists). -/
def c7Run : Except String WorkflowExecution × StorageState × TravState :=
  executeWorkflow (mockChat ⟨false, .vnull, some "x"⟩) 20 "X1" "wf"
    cycleNodes cycleEdges (.vobj []) {}

/-- A piece of a template, as the interpolation claim reads templates: a
run of literal non-token text, or a `\x7b\x7bidentifier\x7d\x7d` token
with the given identifier. -/
inductive Segment where
  | text (s : String)
  | token (key : String)

/-- The template text denoted by a segment decomposition: text segments
verbatim, token segments as their literal token text. -/
def renderSegs : List Segment → String
  | [] => ""
  | .text s :: rest => s ++ renderSegs rest
  | .token key :: rest => "\x7b\x7b" ++ key ++ "\x7d\x7d" ++ renderSegs rest

/-- Well-formedness of a segment decomposition: non-token text carries no
opening brace (so it starts no token), and token identifiers are
nonempty runs of word characters. -/
def SegWF : Segment → Prop
  | .text s => ∀ c ∈ s.data, ¬(c = '{')
  | .token key => key ≠ "" ∧ ∀ c ∈ key.data, isWordChar c = true

/-- The amended interpolation claim's reading of a decomposed template:
all non-token text is untouched, and each token is replaced by the first
truthy lookup (in `context.variables`, then `context.previousResults`),
its literal token text being kept when both lookups are falsy or absent.
This definition follows the claim's words and is compared against the
engine's `interpolateTemplate`. -/
def interpSegs (context : WorkflowContext) : List Segment → String
  | [] => ""
  | .text s :: rest => s ++ interpSegs context rest
  | .token key :: rest =>
    (if ((List.lookup key context.vars).getD .vnull).truthy
     then ((List.lookup key context.vars).getD .vnull).toStr
     else if ((List.lookup key context.previousResults).getD .vnull).truthy
     then ((List.lookup key context.previousResults).getD .vnull).toStr
     else "\x7b\x7b" ++ key ++ "\x7d\x7d") ++ interpSegs context rest

theorem keys_setAssoc {α : Type} (m : List (String × α)) (k : String) (v : α) :
    (setAssoc m k v).map Prod.fst = m.map Prod.fst ∨
    (setAssoc m k v).map Prod.fst = m.map Prod.fst ++ [k] := by
  unfold setAssoc
  split
  · left
    rw [List.map_map]
    apply List.map_congr_left
    intro p _
    by_cases hp : p.1 == k
    · simp only [Function.comp_apply, hp, if_true]
      exact (eq_of_beq hp).symm
    · have hne : ¬(p.1 = k) := by simpa using hp
      simp [Function.comp_apply, hne]
  · right
    simp

theorem mem_keys_setAssoc {α : Type} (m : List (String × α)) (k k' : String) (v : α)
    (h : k ∈ m.map Prod.fst) : k ∈ (setAssoc m k' v).map Prod.fst := by
  rcases keys_setAssoc m k' v with he | he <;> rw [he]
  · exact h
  · exact List.mem_append_left _ h

theorem mem_keys_setAssoc_elim {α : Type} (m : List (String × α)) (k k' : String) (v : α)
    (h : k ∈ (setAssoc m k' v).map Prod.fst) : k ∈ m.map Prod.fst ∨ k = k' := by
  rcases keys_setAssoc m k' v with he | he <;> rw [he] at h
  · exact Or.inl h
  · rcases List.mem_append.mp h with h' | h'
    · exact Or.inl h'
    · exact Or.inr (List.mem_singleton.mp h')

theorem lookup_cons {α : Type} (k a : String) (b : α) (m : List (String × α)) :
    List.lookup k ((a, b) :: m) = if k == a then some b else List.lookup k m := by
  cases h : k == a <;> simp [List.lookup, h]

theorem lookup_setAssoc_self {α : Type} (m : List (String × α)) (k : String) (v : α) :
    List.lookup k (setAssoc m k v) = some v := by
  induction m with
  | nil => simp [setAssoc, List.lookup]
  | cons p m' ih =>
    obtain ⟨a, b⟩ := p
    by_cases hp : a == k
    · have ha : a = k := eq_of_beq hp
      subst ha
      have hsa : setAssoc ((a, b) :: m') a v =
          (a, v) :: m'.map (fun q => if q.1 == a then (a, v) else q) := by
        simp [setAssoc]
      rw [hsa, lookup_cons, if_pos (by simp)]
    · have hne : ¬(a = k) := by simpa using hp
      have hsa : setAssoc ((a, b) :: m') k v = (a, b) :: setAssoc m' k v := by
        by_cases hm : m'.any (fun q => q.1 == k)
        · simp only [setAssoc, List.any_cons, hp, Bool.false_or, hm, if_true,
            List.map_cons]
          simp
        · simp only [setAssoc, List.any_cons, hp, Bool.false_or, hm, if_false,
            List.cons_append]
          simp
      rw [hsa, lookup_cons, if_neg (by simpa using fun h => hne h.symm)]
      exact ih

theorem applyStores_append (a b : List (String × NodeExecutionResult)) :
    ∀ m, applyStores m (a ++ b) = applyStores (applyStores m a) b := by
  induction a with
  | nil => intro m; rfl
  | cons p a' ih => intro m; simp only [List.cons_append, applyStores]; exact ih _

theorem mem_keys_applyStores (l : List (String × NodeExecutionResult)) (k : String) :
    ∀ m, k ∈ m.map Prod.fst → k ∈ (applyStores m l).map Prod.fst := by
  induction l with
  | nil => intro m h; exact h
  | cons p l' ih =>
    intro m h
    simp only [applyStores]
    apply ih
    split
    · exact mem_keys_setAssoc m k p.1 p.2.data h
    · exact h

theorem allSucc_append {a b : List (String × NodeExecutionResult)}
    (ha : allSucc a) (hb : allSucc b) : allSucc (a ++ b) := by
  intro p hp
  rcases List.mem_append.mp hp with h | h
  · exact ha p h
  · exact hb p h

theorem travRun_spec (exec : WorkflowNode → WorkflowContext → NodeExecutionResult)
    (allNodes : List WorkflowNode) (edges : List WorkflowEdge)
    (execId : String) (vars : List (String × JValue)) :
    ∀ (fuel : Nat) (call : TravCall) (st : TravState)
      (res : NodeExecutionResult) (st' : TravState),
      travRun exec allNodes edges execId vars fuel call st = (res, st') →
      ∃ delta,
        st'.trace = st.trace ++ delta ∧
        st'.previousResults = applyStores st.previousResults delta ∧
        (st.exhausted = true → st'.exhausted = true) ∧
        (res.success = true →
          allSucc delta ∧ st'.exhausted = st.exhausted ∧
          (∀ n, call = .node n → res = exec n ⟨execId, vars, st.previousResults⟩) ∧
          (∀ r rest, call = .edgeLoop r rest → res = r)) ∧
        (res.success = false →
          (∀ r rest, call = .edgeLoop r rest → r.success = true) →
          st'.exhausted = true ∨
          ∃ pre n, delta = pre ++ [(n, res)] ∧ allSucc pre) := by
  intro fuel
  induction fuel with
  | zero =>
    intro call st res st' h
    simp only [travRun] at h
    injection h with h1 h2
    subst h1
    subst h2
    refine ⟨[], by simp, rfl, fun _ => rfl, fun hs => by simp at hs, fun _ _ => Or.inl rfl⟩
  | succ fuel ih =>
    intro call st res st' h
    cases call with
    | node n =>
      simp only [travRun] at h
      by_cases hres : (exec n ⟨execId, vars, st.previousResults⟩).success
      · simp only [hres, Bool.not_true, Bool.false_eq_true, if_false] at h
        by_cases hemp : (edges.filter fun edge => edge.source == n.id).isEmpty
        · simp only [hemp, if_true] at h
          injection h with h1 h2
          subst h1
          subst h2
          refine ⟨[(n.id, exec n ⟨execId, vars, st.previousResults⟩)], by simp, ?_, fun hx => hx, ?_, ?_⟩
          · simp [applyStores, hres]
          · intro _
            refine ⟨?_, rfl, ?_, ?_⟩
            · intro p hp
              rcases List.mem_singleton.mp hp with rfl
              exact hres
            · intro n' hc
              injection hc with hc'
              subst hc'
              rfl
            · intro r rest hc
              exact absurd hc (by intro hx; nomatch hx)
          · intro hf _
            exact absurd hres (by simp [hf])
        · simp only [hemp, if_false] at h
          obtain ⟨delta2, htr2, hpr2, hex2, hsc2, hfl2⟩ := ih _ _ _ _ h
          refine ⟨(n.id, exec n ⟨execId, vars, st.previousResults⟩) :: delta2, ?_, ?_, ?_, ?_, ?_⟩
          · rw [htr2]
            simp
          · rw [hpr2]
            simp only [applyStores, hres, if_true]
          · intro hx
            exact hex2 hx
          · intro hs
            obtain ⟨ha2, he2, _, hel2⟩ := hsc2 hs
            refine ⟨?_, by simpa using he2, ?_, ?_⟩
            · intro p hp
              rcases List.mem_cons.mp hp with rfl | hp'
              · exact hres
              · exact ha2 p hp'
            · intro n' hc
              injection hc with hc'
              subst hc'
              exact hel2 _ _ rfl
            · intro r rest hc
              exact absurd hc (by intro hx; nomatch hx)
          · intro hf _
            rcases hfl2 hf (by intro r rest hc; injection hc with hc1 _; subst hc1; exact hres) with hx | ⟨pre, nid, hdel, hpre⟩
            · exact Or.inl hx
            · refine Or.inr ⟨(n.id, exec n ⟨execId, vars, st.previousResults⟩) :: pre, nid,
                by rw [hdel, List.cons_append], ?_⟩
              intro p hp
              rcases List.mem_cons.mp hp with rfl | hp'
              · exact hres
              · exact hpre p hp'
      · simp only [hres] at h
        simp only [Bool.not_false, if_true] at h
        injection h with h1 h2
        subst h1
        subst h2
        refine ⟨[(n.id, exec n ⟨execId, vars, st.previousResults⟩)], by simp, ?_, fun hx => hx, ?_, ?_⟩
        · simp [applyStores, hres]
        · intro hs
          exact absurd hs hres
        · intro _ _
          exact Or.inr ⟨[], n.id, by simp, by intro p hp; simp at hp⟩
    | edgeLoop result rest =>
      cases rest with
      | nil =>
        simp only [travRun] at h
        injection h with h1 h2
        subst h1
        subst h2
        refine ⟨[], by simp, rfl, fun hx => hx, ?_, ?_⟩
        · intro _
          refine ⟨by intro p hp; simp at hp, rfl, ?_, ?_⟩
          · intro n hc
            exact absurd hc (by intro hx; nomatch hx)
          · intro r rest' hc
            injection hc
        · intro hf hok
          exact absurd (hok result [] rfl) (by simp [hf])
      | cons edge rest' =>
        simp only [travRun] at h
        cases hfind : allNodes.find? (fun nd => nd.id == edge.target) with
        | none =>
          rw [hfind] at h
          simp only [] at h
          obtain ⟨delta2, htr2, hpr2, hex2, hsc2, hfl2⟩ := ih _ _ _ _ h
          refine ⟨delta2, htr2, hpr2, hex2, ?_, ?_⟩
          · intro hs
            obtain ⟨ha2, he2, _, hel2⟩ := hsc2 hs
            refine ⟨ha2, he2, ?_, ?_⟩
            · intro n hc
              exact absurd hc (by intro hx; nomatch hx)
            · intro r rest'' hc
              injection hc with hc1 hc2
              exact hc1 ▸ hel2 result rest' rfl
          · intro hf hok
            exact hfl2 hf (by
              intro r rest'' hc
              injection hc with hc1 hc2
              exact hc1 ▸ hok result (edge :: rest') rfl)
        | some nextNode =>
          rw [hfind] at h
          simp only [] at h
          cases hrec : travRun exec allNodes edges execId vars fuel (TravCall.node nextNode) st with
          | mk nextResult stA =>
            rw [hrec] at h
            obtain ⟨delta1, htr1, hpr1, hex1, hsc1, hfl1⟩ := ih _ _ _ _ hrec
            by_cases hns : nextResult.success
            · simp only [hns, Bool.not_true, Bool.false_eq_true, if_false] at h
              obtain ⟨delta2, htr2, hpr2, hex2, hsc2, hfl2⟩ := ih _ _ _ _ h
              obtain ⟨ha1, he1, _, _⟩ := hsc1 hns
              refine ⟨delta1 ++ delta2, ?_, ?_, ?_, ?_, ?_⟩
              · rw [htr2, htr1, List.append_assoc]
              · rw [hpr2, hpr1, applyStores_append]
              · intro hx
                exact hex2 (hex1 hx)
              · intro hs
                obtain ⟨ha2, he2, _, hel2⟩ := hsc2 hs
                refine ⟨allSucc_append ha1 ha2, by rw [he2, he1], ?_, ?_⟩
                · intro n hc
                  exact absurd hc (by intro hx; nomatch hx)
                · intro r rest'' hc
                  injection hc with hc1 hc2
                  exact hc1 ▸ hel2 result rest' rfl
              · intro hf hok
                have hok' : ∀ r rest'', TravCall.edgeLoop result rest' = .edgeLoop r rest'' →
                    r.success = true := by
                  intro r rest'' hc
                  injection hc with hc1 hc2
                  exact hc1 ▸ hok result (edge :: rest') rfl
                rcases hfl2 hf hok' with hx | ⟨pre, nid, hdel, hpre⟩
                · exact Or.inl hx
                · refine Or.inr ⟨delta1 ++ pre, nid, ?_, allSucc_append ha1 hpre⟩
                  rw [hdel, List.append_assoc]
            · simp only [hns] at h
              simp only [Bool.not_false, if_true] at h
              injection h with h1 h2
              subst h1
              subst h2
              refine ⟨delta1, htr1, hpr1, hex1, ?_, ?_⟩
              · intro hs
                exact absurd hs hns
              · intro hf _
                exact hfl1 hf (by intro r rest'' hc; nomatch hc)

theorem takeWord_word_prefix (w : List Char) :
    ∀ r : List Char, (∀ c ∈ w, isWordChar c = true) →
      (∀ c t, r = c :: t → isWordChar c = false) →
      takeWord (w ++ r) = (w, r) := by
  induction w with
  | nil =>
    intro r _ hr
    cases r with
    | nil => rfl
    | cons c t => simp [takeWord, hr c t rfl]
  | cons c w' ih =>
    intro r hw hr
    have hc : isWordChar c = true := hw c (List.mem_cons_self _ _)
    simp only [List.cons_append, takeWord, hc, if_true, List.append_eq]
    rw [ih r (fun d hd => hw d (List.mem_cons_of_mem _ hd)) hr]

theorem interpScan_nil (context : WorkflowContext) (fuel : Nat) :
    interpScan context fuel [] = [] := by
  cases fuel <;> rfl

theorem interpScan_token (context : WorkflowContext) (key : String)
    (fuel : Nat) (r : List Char) (hne : key.data ≠ [])
    (hw : ∀ c ∈ key.data, isWordChar c = true) :
    interpScan context (fuel + 1) ('{' :: '{' :: (key.data ++ ('}' :: '}' :: r))) =
      (tokenReplacement context key ("\x7b\x7b" ++ key ++ "\x7d\x7d")).data
        ++ interpScan context fuel r := by
  have htw : takeWord (key.data ++ ('}' :: '}' :: r)) = (key.data, '}' :: '}' :: r) :=
    takeWord_word_prefix key.data ('}' :: '}' :: r) hw
      (by intro c t hct; injection hct with h1 _; rw [← h1]; decide)
  rw [interpScan, htw]
  simp only [hne, if_false]

theorem interpScan_no_brace (context : WorkflowContext) :
    ∀ (fuel : Nat) (l : List Char), (∀ c ∈ l, ¬(c = '{')) →
      interpScan context fuel l = l := by
  intro fuel l
  induction fuel, l using interpScan.induct context with
  | case1 l => intro _; rfl
  | case2 n => intro _; rfl
  | case3 fuel rest rest2 htw ih =>
    intro h
    exact absurd rfl (h '{' (List.mem_cons_self _ _))
  | case4 fuel rest w rest2 htw hwne ih =>
    intro h
    exact absurd rfl (h '{' (List.mem_cons_self _ _))
  | case5 fuel rest hno ih =>
    intro h
    exact absurd rfl (h '{' (List.mem_cons_self _ _))
  | case6 fuel c rest hguard ih =>
    intro h
    have hc : ¬(c = '{') := h c (List.mem_cons_self _ _)
    have hrest := ih (fun d hd => h d (List.mem_cons_of_mem _ hd))
    rw [interpScan.eq_def]
    simp only []
    rw [hrest]

theorem interpolateTemplate_token (context : WorkflowContext) (key : String)
    (hne : key ≠ "") (hw : ∀ c ∈ key.data, isWordChar c = true) :
    interpolateTemplate ("\x7b\x7b" ++ key ++ "\x7d\x7d") context =
      tokenReplacement context key ("\x7b\x7b" ++ key ++ "\x7d\x7d") := by
  have hdata : ("\x7b\x7b" ++ key ++ "\x7d\x7d").data =
      '{' :: '{' :: (key.data ++ ('}' :: '}' :: [])) := by
    simp [String.data_append]
  have hnonempty : ¬(("\x7b\x7b" ++ key ++ "\x7d\x7d") = "") := by
    intro h
    have h2 := congrArg String.data h
    rw [hdata] at h2
    simp at h2
  have hkd : key.data ≠ [] := by
    intro h
    exact hne (String.ext (by simpa using h))
  have hlen : ('{' :: '{' :: (key.data ++ ('}' :: '}' :: []))).length =
      (key.data.length + 3) + 1 := by
    simp only [List.length_cons, List.length_append, List.length_nil]
  rw [interpolateTemplate, if_neg hnonempty, hdata, hlen,
    interpScan_token context key (key.data.length + 3) [] hkd hw,
    interpScan_nil, List.append_nil]

theorem interpScan_step_nonbrace (context : WorkflowContext) (fuel : Nat)
    (c : Char) (rest : List Char) (hc : ¬(c = '{')) :
    interpScan context (fuel + 1) (c :: rest) = c :: interpScan context fuel rest := by
  rw [interpScan.eq_def]
  split
  · rename_i heq
    exact absurd heq (Nat.succ_ne_zero fuel)
  · rename_i heq1 heq2
    exact List.noConfusion heq2
  · rename_i heq1 heq2
    injection heq2 with hx hy
    exact absurd hx hc
  · rename_i heq1 heq2
    have hf := Nat.succ.inj heq1
    injection heq2 with h1 h2
    rw [← h1, ← h2, ← hf]

theorem interpScan_copy (context : WorkflowContext) :
    ∀ (l : List Char) (fuel : Nat) (r : List Char),
      (∀ c ∈ l, ¬(c = '{')) →
      interpScan context (l.length + fuel) (l ++ r) = l ++ interpScan context fuel r := by
  intro l
  induction l with
  | nil => intro fuel r _; simp
  | cons c l2 ih =>
    intro fuel r h
    have hc : ¬(c = '{') := h c (List.mem_cons_self _ _)
    have harith : (c :: l2).length + fuel = (l2.length + fuel) + 1 := by
      simp only [List.length_cons]
      omega
    rw [harith, List.cons_append,
      interpScan_step_nonbrace context _ c _ hc,
      ih fuel r (fun d hd => h d (List.mem_cons_of_mem _ hd)), List.cons_append]

theorem interpolateTemplate_eq_scan (template : String) (context : WorkflowContext) :
    interpolateTemplate template context =
      ⟨interpScan context template.data.length template.data⟩ := by
  by_cases h : template = ""
  · rw [h]
    rfl
  · rw [interpolateTemplate, if_neg h]

theorem interpScan_segs (context : WorkflowContext) :
    ∀ (segs : List Segment) (fuel : Nat),
      (∀ seg ∈ segs, SegWF seg) →
      (renderSegs segs).data.length ≤ fuel →
      interpScan context fuel (renderSegs segs).data =
        (interpSegs context segs).data := by
  intro segs
  induction segs with
  | nil =>
    intro fuel _ _
    exact interpScan_nil context fuel
  | cons seg rest ih =>
    intro fuel hwf hfuel
    cases seg with
    | text s =>
      have hs : ∀ c ∈ s.data, ¬(c = '{') := hwf (.text s) (List.mem_cons_self _ _)
      have hdata : (renderSegs (Segment.text s :: rest)).data =
          s.data ++ (renderSegs rest).data := by
        simp [renderSegs, String.data_append]
      have hlen : (renderSegs (Segment.text s :: rest)).data.length =
          s.data.length + (renderSegs rest).data.length := by
        rw [hdata, List.length_append]
      have h1 : fuel = s.data.length + (fuel - s.data.length) := by
        rw [hlen] at hfuel
        omega
      rw [hdata, h1, interpScan_copy context s.data _ _ hs,
        ih (fuel - s.data.length) (fun g hg => hwf g (List.mem_cons_of_mem _ hg))
          (by rw [hlen] at hfuel; omega)]
      simp [interpSegs, String.data_append]
    | token key =>
      obtain ⟨hkne, hkw⟩ := hwf (.token key) (List.mem_cons_self _ _)
      have hkd : key.data ≠ [] := fun hd => hkne (String.ext (by simpa using hd))
      have hdata : (renderSegs (Segment.token key :: rest)).data =
          '{' :: '{' :: (key.data ++ ('}' :: '}' :: (renderSegs rest).data)) := by
        simp [renderSegs, String.data_append]
      have hlen : (renderSegs (Segment.token key :: rest)).data.length =
          key.data.length + 4 + (renderSegs rest).data.length := by
        rw [hdata]
        simp only [List.length_cons, List.length_append]
        omega
      cases fuel with
      | zero =>
        exfalso
        rw [hlen] at hfuel
        omega
      | succ f =>
        rw [hdata, interpScan_token context key f (renderSegs rest).data hkd hkw,
          ih f (fun g hg => hwf g (List.mem_cons_of_mem _ hg))
            (by rw [hlen] at hfuel; omega)]
        simp [interpSegs, String.data_append]
        rfl

theorem updateWorkflowExecution_found (id : String) (u : ExecutionUpdate)
    (st : StorageState) (rec : WorkflowExecution)
    (hrec : List.lookup id st.executions = some rec) :
    updateWorkflowExecution id u st =
      (some { rec with status := u.status.getD rec.status,
                       output := u.output.getD rec.output,
                       error := u.error <|> rec.error,
                       completedAt := u.completedAt <|> rec.completedAt },
       { executions := setAssoc st.executions id
           { rec with status := u.status.getD rec.status,
                      output := u.output.getD rec.output,
                      error := u.error <|> rec.error,
                      completedAt := u.completedAt <|> rec.completedAt },
         updateCalls := st.updateCalls ++ [(id, u)] }) := by
  rw [updateWorkflowExecution]
  simp only []
  rw [hrec]

theorem keys_applyStores_elim (l : List (String × NodeExecutionResult)) (k : String) :
    ∀ m, k ∈ (applyStores m l).map Prod.fst →
      k ∈ m.map Prod.fst ∨ k ∈ l.map Prod.fst := by
  induction l with
  | nil => intro m h; exact Or.inl h
  | cons p l' ih =>
    intro m h
    simp only [applyStores] at h
    rcases ih _ h with h' | h'
    · by_cases hs : p.2.success = true
      · rw [if_pos hs] at h'
        rcases mem_keys_setAssoc_elim m k p.1 p.2.data h' with h'' | h''
        · exact Or.inl h''
        · exact Or.inr (by simp [h''])
      · rw [if_neg hs] at h'
        exact Or.inl h'
    · exact Or.inr (List.mem_cons_of_mem _ h')

/-- C3 counterexample: the identifier `x` IS present in
`context.variables`, bound to the empty string, yet `interpolateTemplate`
does not substitute that value's string representation (which would give
`""`): the truthiness-based lookup chain skips falsy values and leaves
the literal token text, so the claim as stated fails at this input. -/
theorem C3_counterexample :
    interpolateTemplate "\x7b\x7bx\x7d\x7d" ⟨"e", [("x", JValue.vstr "")], []⟩ =
      "\x7b\x7bx\x7d\x7d" ∧
    ("\x7b\x7bx\x7d\x7d" : String) ≠ "" :=
  ⟨rfl, by decide⟩

/-- C3 (amended): for every template decomposed into non-token text and
`\x7b\x7bidentifier\x7d\x7d` tokens (text free of opening braces,
identifiers nonempty words), `interpolate` leaves all non-token text
untouched and replaces each token by looking its identifier up first in
`context.variables`, then in `context.previousResults`, substituting its
string representation when it is found with a TRUTHY value and keeping
the literal token text otherwise; additionally, fully brace-free
templates are returned unchanged, and a template that is exactly one
token reduces to the lookup chain itself. -/
theorem C3_interpolate_truthy_lookup :
    (∀ (segs : List Segment) (context : WorkflowContext),
      (∀ seg ∈ segs, SegWF seg) →
      interpolateTemplate (renderSegs segs) context = interpSegs context segs) ∧
    (∀ (template : String) (context : WorkflowContext),
      (∀ c ∈ template.data, ¬(c = '{')) →
      interpolateTemplate template context = template) ∧
    (∀ (key : String) (context : WorkflowContext),
      key ≠ "" → (∀ c ∈ key.data, isWordChar c = true) →
      interpolateTemplate ("\x7b\x7b" ++ key ++ "\x7d\x7d") context =
        (if ((List.lookup key context.vars).getD .vnull).truthy
         then ((List.lookup key context.vars).getD .vnull).toStr
         else if ((List.lookup key context.previousResults).getD .vnull).truthy
         then ((List.lookup key context.previousResults).getD .vnull).toStr
         else "\x7b\x7b" ++ key ++ "\x7d\x7d")) := by
  refine ⟨?_, ?_, ?_⟩
  · intro segs context hwf
    rw [interpolateTemplate_eq_scan,
      interpScan_segs context segs _ hwf (Nat.le_refl _)]
  · intro template context h
    by_cases hempty : template = ""
    · rw [hempty]
      rfl
    · rw [interpolateTemplate, if_neg hempty, interpScan_no_brace context _ _ h]
  · intro key context hne hw
    rw [interpolateTemplate_token context key hne hw]
    rfl

/-- C3 witness: a mixed template — text, one token, text — with a
truthy binding is interpolated segment-wise. -/
theorem C3_witness :
    interpolateTemplate
      (renderSegs [.text "Hi ", .token "name", .text "!"])
      ⟨"e", [("name", JValue.vstr "Ana")], []⟩ = "Hi Ana!" := by
  have h := C3_interpolate_truthy_lookup.1 [.text "Hi ", .token "name", .text "!"]
    ⟨"e", [("name", JValue.vstr "Ana")], []⟩
    (by
      intro seg hseg
      simp only [List.mem_cons, List.not_mem_nil, or_false] at hseg
      rcases hseg with rfl | rfl | rfl
      · exact (by decide : ∀ c ∈ ("Hi " : String).data, ¬(c = '{'))
      · exact ⟨by decide, by decide⟩
      · exact (by decide : ∀ c ∈ ("!" : String).data, ¬(c = '{')))
  rw [h]
  rfl

/-- C10: a token whose identifier maps to a falsy value in
`context.variables` is not substituted with that value — the lookup falls
through to `context.previousResults`, and if the value there is also
falsy or absent the literal token text is kept. -/
theorem C10_falsy_lookup_fallthrough (key : String) (context : WorkflowContext)
    (hne : key ≠ "") (hw : ∀ c ∈ key.data, isWordChar c = true)
    (hfalsy : ((List.lookup key context.vars).getD .vnull).truthy = false) :
    interpolateTemplate ("\x7b\x7b" ++ key ++ "\x7d\x7d") context =
      (if ((List.lookup key context.previousResults).getD .vnull).truthy
       then ((List.lookup key context.previousResults).getD .vnull).toStr
       else "\x7b\x7b" ++ key ++ "\x7d\x7d") := by
  rw [interpolateTemplate_token context key hne hw, tokenReplacement]
  simp only [hfalsy, Bool.false_eq_true, if_false]

/-- C10 witness: `x` is bound to the falsy `""` in variables and to `5`
in previousResults; interpolation falls through and substitutes `"5"`. -/
theorem C10_witness :
    interpolateTemplate ("\x7b\x7b" ++ "x" ++ "\x7d\x7d")
      ⟨"e", [("x", JValue.vstr "")], [("x", JValue.vnum 5)]⟩ = "5" := by
  have h := C10_falsy_lookup_fallthrough "x"
    ⟨"e", [("x", JValue.vstr "")], [("x", JValue.vnum 5)]⟩ (by decide) (by decide) rfl
  rw [h]
  rfl

/-- C8 counterexample: the schedule trigger handler run with a nonempty
variables record returns only a timestamp object; the variable `a` is not
passed through as the claim predicts. -/
theorem C8_counterexample :
    executeSchedule (mockChat ⟨false, .vnull, some "x"⟩)
        { id := "S", type := "schedule" } ⟨"e", [("a", JValue.vstr "1")], []⟩ =
      { success := true, data := .vobj [("timestamp", JValue.vstr "T0")] } ∧
    jvGet (executeSchedule (mockChat ⟨false, .vnull, some "x"⟩)
        { id := "S", type := "schedule" } ⟨"e", [("a", JValue.vstr "1")], []⟩).data "a" =
      JValue.vnull :=
  ⟨rfl, rfl⟩

/-- C8 (amended): for every context, the manual and webhook trigger
handlers return success with data equal to `context.variables` unchanged,
while the schedule trigger handler returns ONLY a fresh timestamp object,
discarding the variables. -/
theorem C8_trigger_handlers (C : Collaborators) (node : WorkflowNode)
    (context : WorkflowContext) :
    executeManualTrigger node context =
      { success := true, data := .vobj context.vars } ∧
    executeWebhook node context =
      { success := true, data := .vobj context.vars } ∧
    executeSchedule C node context =
      { success := true, data := .vobj [("timestamp", JValue.vstr C.now)] } :=
  ⟨rfl, rfl, rfl⟩

/-- C9: a node whose type is none of the built-in handler types and whose
`data.type` is none of the LangChain family types executes to the clean
failure result `Unknown node type: <type>` rather than throwing. -/
theorem C9_unknown_node_type (C : Collaborators) (node : WorkflowNode)
    (context : WorkflowContext)
    (hb : node.type ∉ builtinNodeTypes)
    (hl : ∀ t ∈ langChainNodeTypes, jvGet node.data "type" ≠ JValue.vstr t) :
    executeNode C node context =
      { success := false, error := some ("Unknown node type: " ++ node.type) } := by
  have hlc : isLangChainNode node = false := by
    rw [isLangChainNode]
    cases hjv : jvGet node.data "type" with
    | vstr s =>
      by_cases hmem : s ∈ langChainNodeTypes
      · have hcontra := hl s hmem
        rw [hjv] at hcontra
        exact absurd rfl hcontra
      · simpa using hmem
    | vnum n => rfl
    | vbool b => rfl
    | vnull => rfl
    | varr l => rfl
    | vobj l => rfl
  have hbt : ∀ t ∈ builtinNodeTypes, (node.type == t) = false := by
    intro t ht
    exact beq_eq_false_iff_ne.mpr (fun h => hb (h ▸ ht))
  have hm : ∀ t, t ∈ builtinNodeTypes → (node.type == t) = false := hbt
  simp only [executeNode, hlc, Bool.false_eq_true, if_false,
    hm "manual" (by simp [builtinNodeTypes]),
    hm "webhook" (by simp [builtinNodeTypes]),
    hm "schedule" (by simp [builtinNodeTypes]),
    hm "openai" (by simp [builtinNodeTypes]),
    hm "agent" (by simp [builtinNodeTypes]),
    hm "vector" (by simp [builtinNodeTypes]),
    hm "code" (by simp [builtinNodeTypes]),
    hm "condition" (by simp [builtinNodeTypes]),
    hm "merge" (by simp [builtinNodeTypes]),
    hm "email" (by simp [builtinNodeTypes]),
    hm "webhook-response" (by simp [builtinNodeTypes])]

/-- C9 witness: a concrete node of type `bogus` (and no LangChain
`data.type`) yields the clean unknown-type failure. -/
theorem C9_witness :
    executeNode (mockChat ⟨false, .vnull, some "x"⟩)
        { id := "Z", type := "bogus" } ⟨"e", [], []⟩ =
      { success := false, error := some ("Unknown node type: " ++ "bogus") } :=
  C9_unknown_node_type (mockChat ⟨false, .vnull, some "x"⟩)
    { id := "Z", type := "bogus" } ⟨"e", [], []⟩ (by decide)
    (by intro t ht h; nomatch h)

/-- C4: fail-fast traversal — when the traversal returns a failure (and
the recursion-depth model was not the cause), the invocation trace ends
exactly at the failing node, every earlier invocation of this traversal
succeeded, `previousResults` received exactly the stores of the
successful invocations (the failing node's data is not stored), and all
previously present keys remain present. -/
theorem C4_fail_fast (exec : WorkflowNode → WorkflowContext → NodeExecutionResult)
    (fuel : Nat) (node : WorkflowNode) (allNodes : List WorkflowNode)
    (edges : List WorkflowEdge) (execId : String) (vars : List (String × JValue))
    (st : TravState) (res : NodeExecutionResult) (st2 : TravState)
    (h : executeFromNode exec fuel node allNodes edges execId vars st = (res, st2))
    (hfail : res.success = false) (hex : st2.exhausted = false) :
    ∃ pre n,
      st2.trace = st.trace ++ pre ++ [(n, res)] ∧
      (∀ p ∈ pre, p.2.success = true) ∧
      st2.previousResults = applyStores st.previousResults (pre ++ [(n, res)]) ∧
      (∀ k ∈ st.previousResults.map Prod.fst,
        k ∈ st2.previousResults.map Prod.fst) := by
  obtain ⟨delta, htr, hpr, _, _, hfl⟩ :=
    travRun_spec exec allNodes edges execId vars fuel (.node node) st res st2 h
  rcases hfl hfail (by intro r rest hc; nomatch hc) with hx | ⟨pre, n, hdel, hpre⟩
  · rw [hx] at hex
    cases hex
  · subst hdel
    refine ⟨pre, n, ?_, hpre, hpr, ?_⟩
    · rw [htr, List.append_assoc]
    · intro k hk
      rw [hpr]
      exact mem_keys_applyStores _ k _ hk

/-- C4 witness: the 3-node chain whose middle node fails with `boom` —
the traversal returns the failure directly, node C is never invoked, A's
result remains stored. -/
theorem C4_witness :
    ∃ pre n,
      c4Run.2.trace = [] ++ pre ++ [(n, c4Run.1)] ∧
      (∀ p ∈ pre, p.2.success = true) ∧
      c4Run.2.previousResults = applyStores [] (pre ++ [(n, c4Run.1)]) ∧
      (∀ k ∈ ([] : List (String × JValue)).map Prod.fst,
        k ∈ c4Run.2.previousResults.map Prod.fst) :=
  C4_fail_fast (executeNode (mockChat ⟨false, .vnull, some "boom"⟩)) 20 nodeA
    [nodeA, nodeB, nodeC] chainEdges "X1" [("message", JValue.vstr "hi")]
    ⟨[], [], false⟩ c4Run.1 c4Run.2 rfl rfl rfl

/-- C5 counterexample: on the diamond graph A→B→D, A→C→D the join node D
appears as a key of `previousResults`, but its handler was invoked twice
(once per incoming path) — the claim's at-most-once invariant fails. -/
theorem C5_counterexample :
    "D" ∈ c5Run.2.previousResults.map Prod.fst ∧
    (c5Run.2.trace.filter (fun p => p.1 == "D")).length = 2 ∧
    c5Run.2.trace.map Prod.fst = ["A", "B", "D", "C", "D"] :=
  ⟨by decide, rfl, rfl⟩

/-- C5 (amended): every node id appearing as a key in
`context.previousResults` had its handler invoked AT LEAST once during
that execution (it appears in the invocation trace); the traversal may
re-invoke a node reachable via multiple incoming edges, once per
traversed path. -/
theorem C5_prev_results_invoked
    (exec : WorkflowNode → WorkflowContext → NodeExecutionResult)
    (fuel : Nat) (node : WorkflowNode) (allNodes : List WorkflowNode)
    (edges : List WorkflowEdge) (execId : String) (vars : List (String × JValue))
    (prev0 : List (String × JValue)) (res : NodeExecutionResult) (st2 : TravState)
    (h : executeFromNode exec fuel node allNodes edges execId vars
      ⟨prev0, [], false⟩ = (res, st2))
    (k : String) (hk : k ∈ st2.previousResults.map Prod.fst) :
    k ∈ prev0.map Prod.fst ∨ k ∈ st2.trace.map Prod.fst := by
  obtain ⟨delta, htr, hpr, _, _, _⟩ :=
    travRun_spec exec allNodes edges execId vars fuel (.node node)
      ⟨prev0, [], false⟩ res st2 h
  rw [hpr] at hk
  rcases keys_applyStores_elim delta k prev0 hk with h1 | h1
  · exact Or.inl h1
  · right
    rw [htr]
    simpa using h1

/-- C5 witness: on the diamond run, the key `D` of `previousResults`
indeed appears in the invocation trace. -/
theorem C5_witness :
    "D" ∈ ([] : List (String × JValue)).map Prod.fst ∨
    "D" ∈ c5Run.2.trace.map Prod.fst :=
  C5_prev_results_invoked (executeNode (mockChat ⟨false, .vnull, some "x"⟩)) 20
    (manualNode "A") diamondNodes diamondEdges "E" [] [] c5Run.1 c5Run.2 rfl
    "D" (by decide)

/-- C1: at the failing input (3-node chain A→B→C where B's handler
returns the failure `boom`), the engine invokes A then B, B's failure
result reaches `executeWorkflow` — and the persisted record is
nevertheless updated to `completed` with an `undefined` output and a null
`error`, because `executeWorkflow` never inspects `result.success`.  The
claim (record `Failed` with error containing `boom`) is the evident
intent of the engine's fail-fast result propagation, so this is a code
bug, witnessed here by evaluating the engine at the failing input. -/
theorem C1_failure_recorded_completed :
    ∃ rec, c1Run.1 = .ok rec ∧
      rec.status = "completed" ∧
      rec.error = none ∧
      rec.output = JValue.vnull ∧
      rec.status ≠ "failed" ∧
      c1Run.2.2.trace =
        [("A", { success := true, data := .vobj [("message", JValue.vstr "hi")] }),
         ("B", { success := false, error := some "boom" })] :=
  ⟨_, rfl, rfl, rfl, rfl, by decide, rfl⟩

/-- C2 counterexample: in the scenario run (manual-trigger → openai-chat
→ webhook-response, mocked chat returning `hello back`), the completed
record's output is the START node's data — the pass-through of the input
variables — not the webhook-response handler's interpolation result. -/
theorem C2_counterexample :
    ∃ rec, c2Run.1 = .ok rec ∧
      rec.status = "completed" ∧
      rec.output = JValue.vobj [("message", JValue.vstr "hi")] ∧
      rec.output ≠ JValue.vstr "hello back" :=
  ⟨_, rfl, rfl, rfl, by intro h; nomatch h⟩

/-- C2 (amended): for every run in which the traversal returns success,
the execution record is updated to `completed` with output equal to the
START node's own handler result data — `executeFromNode` returns each
node's own result after its subtree succeeds, so the top-level result is
the entry node's, not the final branch node's. -/
theorem C2_completed_output_is_start_result
    (C : Collaborators) (fuel : Nat) (newId workflowId : String)
    (nodes : List WorkflowNode) (edges : List WorkflowEdge) (input : JValue)
    (st : StorageState) (startNode : WorkflowNode) (restNodes : List WorkflowNode)
    (res : NodeExecutionResult) (tst : TravState)
    (hstart : nodes.filter (fun node => !edges.any (fun edge => edge.target == node.id)) =
      startNode :: restNodes)
    (htrav : executeFromNode (executeNode C) fuel startNode nodes edges newId
      (asFields (input.jsOr (.vobj []))) ⟨[], [], false⟩ = (res, tst))
    (hsucc : res.success = true) :
    ∃ rec, (executeWorkflow C fuel newId workflowId nodes edges input st).1 = .ok rec ∧
      rec.status = "completed" ∧
      rec.output = (executeNode C startNode
        ⟨newId, asFields (input.jsOr (.vobj [])), []⟩).data := by
  obtain ⟨delta, htr, hpr, hexm, hsc, hfl⟩ :=
    travRun_spec (executeNode C) nodes edges newId
      (asFields (input.jsOr (.vobj []))) fuel (.node startNode) ⟨[], [], false⟩ res tst htrav
  obtain ⟨hsucc2, hexh, hnode, hedge⟩ := hsc hsucc
  have hres : res = executeNode C startNode
      ⟨newId, asFields (input.jsOr (.vobj [])), []⟩ := hnode startNode rfl
  simp only [executeWorkflow, createWorkflowExecution]
  rw [hstart]
  simp only []
  rw [htrav]
  simp only []
  rw [updateWorkflowExecution_found newId _ _ _ (lookup_setAssoc_self _ _ _)]
  simp only []
  refine ⟨{ id := newId, workflowId := workflowId,
            input := (input.jsOr (JValue.vobj [])).jsOr (JValue.vobj []),
            output := res.data, status := "completed",
            error := none,
            executionTime := C.now, completedAt := some C.now },
          ?_, rfl, by rw [hres]⟩
  rw [getWorkflowExecution]
  rw [lookup_setAssoc_self]
  rfl

/-- C2 witness: the scenario run instantiates the amended statement — the
output is the manual trigger's pass-through of the input variables. -/
theorem C2_witness :
    ∃ rec, c2Run.1 = .ok rec ∧ rec.status = "completed" ∧
      rec.output = (executeNode (mockChat ⟨true, .vstr "hello back", none⟩) nodeA
        ⟨"X1", asFields (scenarioInput.jsOr (.vobj [])), []⟩).data :=
  C2_completed_output_is_start_result (mockChat ⟨true, .vstr "hello back", none⟩)
    20 "X1" "wf" [nodeA, nodeB, nodeC] chainEdges scenarioInput {} nodeA []
    (executeFromNode (executeNode (mockChat ⟨true, .vstr "hello back", none⟩)) 20 nodeA
      [nodeA, nodeB, nodeC] chainEdges "X1" (asFields (scenarioInput.jsOr (.vobj [])))
      ⟨[], [], false⟩).1
    (executeFromNode (executeNode (mockChat ⟨true, .vstr "hello back", none⟩)) 20 nodeA
      [nodeA, nodeB, nodeC] chainEdges "X1" (asFields (scenarioInput.jsOr (.vobj [])))
      ⟨[], [], false⟩).2
    rfl rfl rfl

/-- C6: every `executeWorkflow` run creates the record in status
`running`, performs exactly one `updateWorkflowExecution` call for it,
and that single call moves the status to the terminal `completed` (when
the function returns normally) or `failed` (when it rethrows); the
record is never left `running`. -/
theorem C6_single_terminal_update (C : Collaborators) (fuel : Nat)
    (newId workflowId : String) (nodes : List WorkflowNode)
    (edges : List WorkflowEdge) (input : JValue) (st : StorageState)
    (out : Except String WorkflowExecution) (st2 : StorageState) (tst : TravState)
    (h : executeWorkflow C fuel newId workflowId nodes edges input st = (out, st2, tst)) :
    (createWorkflowExecution newId C.now workflowId (input.jsOr (.vobj [])) st).1.status =
      "running" ∧
    ∃ u rec,
      st2.updateCalls = st.updateCalls ++ [(newId, u)] ∧
      getWorkflowExecution newId st2 = some rec ∧
      u.status = some rec.status ∧
      (rec.status = "completed" ∨ rec.status = "failed") ∧
      (∀ r, out = .ok r → rec.status = "completed") ∧
      (∀ e, out = .error e → rec.status = "failed") ∧
      rec.status ≠ "running" := by
  refine ⟨rfl, ?_⟩
  simp only [executeWorkflow, createWorkflowExecution] at h
  cases hs : nodes.filter (fun node => !edges.any (fun edge => edge.target == node.id)) with
  | nil =>
    rw [hs] at h
    simp only [] at h
    rw [updateWorkflowExecution_found newId _ _ _ (lookup_setAssoc_self _ _ _)] at h
    simp only [] at h
    injection h with h1 h23
    injection h23 with h2 h3
    subst h1
    subst h2
    refine ⟨{ status := some "failed", output := none,
              error := some "No start node found in workflow",
              completedAt := some C.now },
            { id := newId, workflowId := workflowId,
              input := (input.jsOr (JValue.vobj [])).jsOr (JValue.vobj []),
              output := JValue.vnull, status := "failed",
              error := some "No start node found in workflow",
              executionTime := C.now, completedAt := some C.now },
            rfl, ?_, rfl, Or.inr rfl, ?_, fun _ _ => rfl,
            (show ("failed" : String) ≠ "running" by decide)⟩
    · rw [getWorkflowExecution]
      exact lookup_setAssoc_self _ _ _
    · intro r hr
      nomatch hr
  | cons startNode rest =>
    rw [hs] at h
    simp only [] at h
    rw [updateWorkflowExecution_found newId _ _ _ (lookup_setAssoc_self _ _ _)] at h
    simp only [] at h
    injection h with h1 h23
    injection h23 with h2 h3
    subst h1
    subst h2
    refine ⟨{ status := some "completed",
              output := some (executeFromNode (executeNode C) fuel startNode nodes edges
                newId (asFields (input.jsOr (JValue.vobj [])))
                ⟨[], [], false⟩).1.data,
              error := none, completedAt := some C.now },
            { id := newId, workflowId := workflowId,
              input := (input.jsOr (JValue.vobj [])).jsOr (JValue.vobj []),
              output := (executeFromNode (executeNode C) fuel startNode nodes edges
                newId (asFields (input.jsOr (JValue.vobj [])))
                ⟨[], [], false⟩).1.data,
              status := "completed", error := none,
              executionTime := C.now, completedAt := some C.now },
            rfl, ?_, rfl, Or.inl rfl, fun _ _ => rfl, ?_,
            (show ("completed" : String) ≠ "running" by decide)⟩
    · rw [getWorkflowExecution]
      exact lookup_setAssoc_self _ _ _
    · intro e he
      nomatch he

/-- C6 witness: the scenario run performs exactly one update, to
`completed`. -/
theorem C6_witness :
    (createWorkflowExecution "X1" (mockChat ⟨true, .vstr "hello back", none⟩).now "wf"
      (scenarioInput.jsOr (.vobj [])) {}).1.status = "running" ∧
    ∃ u rec,
      c2Run.2.1.updateCalls = [] ++ [("X1", u)] ∧
      getWorkflowExecution "X1" c2Run.2.1 = some rec ∧
      u.status = some rec.status ∧
      (rec.status = "completed" ∨ rec.status = "failed") ∧
      (∀ r, c2Run.1 = .ok r → rec.status = "completed") ∧
      (∀ e, c2Run.1 = .error e → rec.status = "failed") ∧
      rec.status ≠ "running" :=
  C6_single_terminal_update (mockChat ⟨true, .vstr "hello back", none⟩) 20 "X1" "wf"
    [nodeA, nodeB, nodeC] chainEdges scenarioInput {} c2Run.1 c2Run.2.1 c2Run.2.2 rfl

/-- C7: when every node has at least one incoming edge there is no start
node; `executeWorkflow` throws and rethrows `No start node found in
workflow`, the record is updated to `failed` with that message, and the
invocation trace is empty — no handler ran. -/
theorem C7_no_start_node (C : Collaborators) (fuel : Nat)
    (newId workflowId : String) (nodes : List WorkflowNode)
    (edges : List WorkflowEdge) (input : JValue) (st : StorageState)
    (hall : ∀ n ∈ nodes, edges.any (fun e => e.target == n.id) = true) :
    ∃ rec,
      (executeWorkflow C fuel newId workflowId nodes edges input st).1 =
        .error "No start node found in workflow" ∧
      getWorkflowExecution newId
        (executeWorkflow C fuel newId workflowId nodes edges input st).2.1 =
        some rec ∧
      rec.status = "failed" ∧
      rec.error = some "No start node found in workflow" ∧
      (executeWorkflow C fuel newId workflowId nodes edges input st).2.2.trace = [] := by
  have hfilter :
      nodes.filter (fun node => !edges.any (fun edge => edge.target == node.id)) = [] := by
    rw [List.filter_eq_nil_iff]
    intro n hn
    simp [hall n hn]
  simp only [executeWorkflow, createWorkflowExecution]
  rw [hfilter]
  simp only []
  rw [updateWorkflowExecution_found newId _ _ _ (lookup_setAssoc_self _ _ _)]
  simp only []
  refine ⟨{ id := newId, workflowId := workflowId,
            input := (input.jsOr (JValue.vobj [])).jsOr (JValue.vobj []),
            output := JValue.vnull, status := "failed",
            error := some "No start node found in workflow",
            executionTime := C.now, completedAt := some C.now },
          trivial, ?_, rfl, rfl, trivial⟩
  rw [getWorkflowExecution]
  exact lookup_setAssoc_self _ _ _

/-- C7 witness: the 2-node cycle has no start node. -/
theorem C7_witness :
    ∃ rec,
      c7Run.1 = .error "No start node found in workflow" ∧
      getWorkflowExecution "X1" c7Run.2.1 = some rec ∧
      rec.status = "failed" ∧
      rec.error = some "No start node found in workflow" ∧
      c7Run.2.2.trace = [] :=
  C7_no_start_node (mockChat ⟨false, .vnull, some "x"⟩) 20 "X1" "wf" cycleNodes
    cycleEdges (.vobj []) {} (by decide)

end AgentFlow
